import Mathlib

/-!
Shallow embedding of `src/get_odds_streamlit.py` (FanDuel NFL odds fetcher).

Modelling conventions:
* Python numbers are embedded as exact rationals (`ℚ`); Python `int(x)`
  truncation toward zero is `truncQ`.
* A Python runtime value that may reach `to_american_odds` is a `PyVal`
  (int, float, string, or None — `outcome.get("price")` yields None when
  the key is missing).
* Python exceptions are an explicit `Except PyExc` effect; the `try/except`
  of the source catches every error and turns it into `none`.
* Instants (UTC timestamps) are integers counting seconds; `timedelta(hours=h)`
  is `h * 3600`.
* The HTTP layer is a parameter: each `requests.get` call is represented by an
  `HttpOutcome` value describing what the call produced (transport error, or a
  response with a status code and body-parse results).  The URL strings built
  by the source are not modelled.
* Streamlit calls `st.error` / `st.warning` are modelled as messages
  accumulated in the first component of each function's result; `st.progress`
  and the rest of the UI layer are outside the embedded core.
-/

/-- Truncation toward zero, the semantics of Python `int()` applied to a
(non-integral) number: floor for nonnegative values, ceiling for negative. -/
def truncQ (q : ℚ) : ℤ := if 0 ≤ q then ⌊q⌋ else ⌈q⌉

/-- Python exceptions that the modelled code can raise. -/
inductive PyExc where
  | zeroDivision
  | valueError
  | typeError
deriving DecidableEq

/-- A Python runtime value that can be passed to `to_american_odds`:
an int, a float (embedded as an exact rational), a string, or `None`.  -/
inductive PyVal where
  | int (n : ℤ)
  | float (q : ℚ)
  | str (s : String)
  | none
deriving DecidableEq

/-- Python `a / b` on numbers: raises `ZeroDivisionError` on a zero divisor. -/
def pyDiv (a b : ℚ) : Except PyExc ℚ :=
  if b = 0 then .error .zeroDivision else .ok (a / b)

def isAsciiDigit (c : Char) : Bool := '0' ≤ c && c ≤ '9'

def natOfDigits (ds : List Char) : ℕ :=
  ds.foldl (fun acc c => 10 * acc + (c.toNat - '0'.toNat)) 0

/-- Numeric-literal part of Python `float(str)` after sign stripping:
digits with an optional decimal point (`"12"`, `"12."`, `".5"`, `"1.25"`).
Scientific notation, `inf`/`nan` and underscore separators are outside the
modelled fragment (no claim depends on them). -/
def parseUnsignedFloat? (cs : List Char) : Option ℚ :=
  let intPart := cs.takeWhile isAsciiDigit
  let rest := cs.dropWhile isAsciiDigit
  match rest with
  | [] => if intPart.isEmpty then Option.none else some (natOfDigits intPart : ℚ)
  | '.' :: rest2 =>
    let fracPart := rest2.takeWhile isAsciiDigit
    let rest3 := rest2.dropWhile isAsciiDigit
    if rest3.isEmpty && !(intPart.isEmpty && fracPart.isEmpty) then
      some ((natOfDigits intPart : ℚ) +
        (natOfDigits fracPart : ℚ) / ((10 : ℚ) ^ fracPart.length))
    else Option.none
  | _ => Option.none

/-- Python `float(str)`: strips surrounding whitespace, allows an optional
sign, then a numeric literal; any other string raises `ValueError`. -/
def parseFloat? (s : String) : Option ℚ :=
  let cs := ((s.data.dropWhile Char.isWhitespace).reverse.dropWhile
      Char.isWhitespace).reverse
  match cs with
  | '-' :: rest => (parseUnsignedFloat? rest).map (fun q => -q)
  | '+' :: rest => parseUnsignedFloat? rest
  | rest => parseUnsignedFloat? rest

/-- Python `float(v)` on a `PyVal`: ints and floats convert exactly, strings
are parsed (`ValueError` on failure), `None` raises `TypeError`. -/
def pyFloat : PyVal → Except PyExc ℚ
  | .int n => .ok (n : ℚ)
  | .float q => .ok q
  | .str s =>
    match parseFloat? s with
    | some q => .ok q
    | Option.none => .error .valueError
  | .none => .error .typeError

/-- `isinstance(v, int)`. -/
def pyIsInt : PyVal → Bool
  | .int _ => true
  | _ => false

/-- `isinstance(v, float)`. -/
def pyIsFloat : PyVal → Bool
  | .float _ => true
  | _ => false

/-- `abs(v) > 100`, evaluated only on numeric values (the source guards it
behind `isinstance(v, float)`). -/
def pyAbsOver100 : PyVal → Bool
  | .int n => decide (100 < |n|)
  | .float q => decide (100 < |q|)
  | _ => false

/-- Python `int(v)` for the values that reach it in the source: an int is
returned unchanged, a float is truncated toward zero.  The string and None
cases are unreachable under the source's guard (they would raise). -/
def pyInt : PyVal → Except PyExc ℤ
  | .int n => .ok n
  | .float q => .ok (truncQ q)
  | .str _ => .error .valueError
  | .none => .error .typeError

/-- The `else` arm of `to_american_odds` once `decimal_odds = float(v)` is
known: `(d-1)*100` truncated when `d >= 2.0`, else `-100/(d-1)` truncated. -/
def decimalBranch (d : ℚ) : Except PyExc ℤ :=
  if 2 ≤ d then .ok (truncQ ((d - 1) * 100))
  else (pyDiv (-100) (d - 1)).map truncQ

/-- Body of `to_american_odds` (source lines 52–59) before the enclosing
`try/except`: the computation together with any exception it raises. -/
def toAmericanBody (v : PyVal) : Except PyExc ℤ :=
  if pyIsInt v || (pyIsFloat v && pyAbsOver100 v) then
    pyInt v
  else
    match pyFloat v with
    | .error e => .error e
    | .ok d => decimalBranch d

/-- `to_american_odds` (source lines 51–61): the body wrapped in
`try/except Exception: return None`. -/
def to_american_odds (v : PyVal) : Option ℤ :=
  match toAmericanBody v with
  | .ok z => some z
  | .error _ => Option.none

/-! ## Event discovery and per-event odds fetch -/

/-- Config constants of the source (lines 14–30).  The URL strings they feed
into are not modelled. -/
def SPORT : String := "americanfootball_nfl"

def REGION : String := "us"

def HOURS_AHEAD : ℤ := 48

def MARKETS : List String :=
  ["player_pass_attempts", "player_pass_rush_yds", "player_rush_yds",
   "player_pass_tds", "player_pass_yds", "player_receptions",
   "player_reception_yds", "player_rush_tds", "player_pass_yds_alternate",
   "player_receptions_alternate", "player_reception_yds_alternate",
   "player_rush_yds_alternate"]

/-- What one `requests.get` call produced, for a payload the 200-path parses
as `α`:
* `netError m` — `requests.exceptions.RequestException` with message `m`
  (connection failure, timeout);
* `resp st body em tx` — a response with status code `st`;
  `body` is the result of `resp.json()` read as the expected payload
  (`Except.error m` when `resp.json()` raises);
  `em` is what the error path's `resp.json().get("message", default)` would
  see: `Option.none` when `resp.json()` raises, `some Option.none` when the
  JSON object has no "message" key, `some (some m)` for message `m`;
  `tx` is `resp.text`. -/
inductive HttpOutcome (α : Type) where
  | netError (m : String)
  | resp (st : ℕ) (body : Except String α) (em : Option (Option String)) (tx : String)

/-- One item of the events array, after the per-event work of source lines
99–101: `malformed` stands for any item whose field access or timestamp
parse raises (the item is skipped); `ok` carries id, home team, away team
and the kickoff instant (UTC, seconds). -/
inductive RawEvent where
  | malformed
  | ok (id home away : String) (kickoff : ℤ)
deriving DecidableEq

/-- Formatted US/Eastern rendering of an instant, the results of the three
`strftime` calls of source lines 108–110.  The time-zone conversion and
format layer is passed in as a function `ℤ → EstStamp`. -/
structure EstStamp where
  date_est : String
  time_est : String
  datetime_est : String
deriving DecidableEq

/-- The per-game dict built at source lines 105–111. -/
structure Game where
  id : String
  game : String
  date_est : String
  time_est : String
  datetime_est : String
deriving DecidableEq

/-- Messages surfaced by `get_upcoming_games` via `st.error` / `st.warning`. -/
inductive DiscMsg where
  | networkError (m : String)
  | apiError (st : ℕ) (m : String)
  | parseError (m : String)
  | noGamesWarning
deriving DecidableEq

/-- The message used by the non-200 branch of discovery (source lines
78–83): the JSON "message" field, defaulting to "Unknown API error", or
`resp.text` when the body is not JSON. -/
def discoveryErrMessage (em : Option (Option String)) (tx : String) : String :=
  match em with
  | Option.none => tx
  | some Option.none => "Unknown API error"
  | some (some m) => m

/-- The dict appended for a kept event (source lines 105–111). -/
def buildGame (fmt : ℤ → EstStamp) (i h a : String) (t : ℤ) : Game :=
  { id := i, game := h ++ " vs " ++ a,
    date_est := (fmt t).date_est, time_est := (fmt t).time_est,
    datetime_est := (fmt t).datetime_est }

/-- Body of the per-event loop of discovery (source lines 97–114): a
malformed item is skipped; a parsed one is kept exactly when its kickoff is
at or before `now + 48 hours`. -/
def processEvent (now : ℤ) (fmt : ℤ → EstStamp) : RawEvent → Option Game
  | .malformed => Option.none
  | .ok i h a t =>
    if t ≤ now + HOURS_AHEAD * 3600 then some (buildGame fmt i h a t)
    else Option.none

/-- `get_upcoming_games` (source lines 67–118), with the HTTP call and the
time-zone/format layer as parameters.  Returns the surfaced messages and the
games list. -/
def get_upcoming_games (now : ℤ) (fmt : ℤ → EstStamp)
    (resp : HttpOutcome (List RawEvent)) : List DiscMsg × List Game :=
  match resp with
  | .netError m => ([.networkError m], [])
  | .resp st body em tx =>
    if st ≠ 200 then ([.apiError st (discoveryErrMessage em tx)], [])
    else
      match body with
      | .error m => ([.parseError m], [])
      | .ok events =>
        let games := events.filterMap (processEvent now fmt)
        (if games.isEmpty then [DiscMsg.noGamesWarning] else [], games)

/-- One outcome object of a market (source lines 164–177): the four fields
the source reads via `.get`. -/
structure Outcome where
  description : Option String
  price : PyVal
  point : Option ℚ
  name : Option String
deriving DecidableEq

/-- One market object of a bookmaker (source lines 162–164). -/
structure Market where
  key : Option String
  outcomes : List Outcome
deriving DecidableEq

/-- One bookmaker object of the odds response (source lines 157–162). -/
structure Bookmaker where
  title : Option String
  markets : List Market
deriving DecidableEq

/-- Messages surfaced by `fetch_odds` via `st.warning`. -/
inductive FetchMsg where
  | apiWarning (st : ℕ) (eventName m : String)
  | netWarning (eventName m : String)
  | noData
deriving DecidableEq

/-- The message used by the non-200 branch of the fetch (source lines
146–150): the JSON "message" field, defaulting to "Unknown error", or
`resp.text` when the body is not JSON. -/
def fetchErrMessage (em : Option (Option String)) (tx : String) : String :=
  match em with
  | Option.none => tx
  | some Option.none => "Unknown error"
  | some (some m) => m

/-- One output row appended at source lines 166–177. -/
structure PropRow where
  game : String
  date_time_est : String
  date_est : String
  time_est : String
  bookmaker : Option String
  market : Option String
  player : Option String
  over_under : Option ℚ
  side : Option String
  odds_american : Option ℤ
deriving DecidableEq

/-- Does `"fanduel" occur in bookmaker.get("title", "").lower()` (source
lines 158–159)?  Substring containment is Python's `in` on strings. -/
def startsWithChars : List Char → List Char → Bool
  | _, [] => true
  | [], _ :: _ => false
  | c :: cs, d :: ds => c = d && startsWithChars cs ds

def hasSubChars : List Char → List Char → Bool
  | [], needle => needle.isEmpty
  | c :: t, needle => startsWithChars (c :: t) needle || hasSubChars t needle

/-- Python `needle in hay` on strings. -/
def pyIn (needle hay : String) : Bool := hasSubChars hay.data needle.data

/-- Python `str.lower()` (the bookmaker titles are ASCII). -/
def pyLower (s : String) : String := ⟨s.data.map Char.toLower⟩

/-- The bookmaker filter of source lines 158–159: case-insensitive substring
match of "fanduel" against `bookmaker.get("title", "")`. -/
def matchesFanduel (bm : Bookmaker) : Bool :=
  pyIn "fanduel" (pyLower (bm.title.getD ""))

/-- The row built for one outcome (source lines 165–177). -/
def mkRow (g : Game) (bm : Bookmaker) (mkey : Option String) (o : Outcome) : PropRow :=
  { game := g.game, date_time_est := g.datetime_est, date_est := g.date_est,
    time_est := g.time_est, bookmaker := bm.title, market := mkey,
    player := o.description, over_under := o.point, side := o.name,
    odds_american := to_american_odds o.price }

/-- The bookmaker/market/outcome triple loop of source lines 157–177. -/
def extractProps (g : Game) (bms : List Bookmaker) : List PropRow :=
  bms.flatMap fun bm =>
    if matchesFanduel bm then
      bm.markets.flatMap fun mk => mk.outcomes.map (mkRow g bm mk.key)
    else []

/-- The per-event iteration of `fetch_odds` (source lines 129–177): HTTP 422
skips silently, any other non-200 status or transport error warns and skips,
a parsed 200 response goes through the bookmaker loop.  (A body that fails to
parse as JSON raises `requests.exceptions.JSONDecodeError`, a
`RequestException`, so it lands in the network-warning arm.) -/
def processOdds (g : Game) (r : HttpOutcome (List Bookmaker)) :
    List FetchMsg × List PropRow :=
  match r with
  | .netError m => ([.netWarning g.game m], [])
  | .resp st body em tx =>
    if st = 422 then ([], [])
    else if st ≠ 200 then ([.apiWarning st g.game (fetchErrMessage em tx)], [])
    else
      match body with
      | .error m => ([.netWarning g.game m], [])
      | .ok bms => ([], extractProps g bms)

/-- `fetch_odds` (source lines 124–189): each selected game is paired with
what its HTTP call produced; the accumulated rows are turned into a frame,
the empty case warns and returns empty, otherwise rows are filtered to
side == "Over". -/
def fetch_odds (selected : List (Game × HttpOutcome (List Bookmaker))) :
    List FetchMsg × List PropRow :=
  let per := selected.map fun p => processOdds p.1 p.2
  let msgs := (per.map Prod.fst).flatten
  let all_props := (per.map Prod.snd).flatten
  if all_props.isEmpty then (msgs ++ [FetchMsg.noData], [])
  else (msgs, all_props.filter fun r => r.side == some "Over")

/-! ## Concrete fixtures used by witnesses -/

/-- A fixed formatting layer for witnesses. -/
def fmtEx : ℤ → EstStamp := fun _ => ⟨"01-01-2026", "01:00 PM", "01-01-2026 01:00 PM"⟩

def gEx : Game :=
  ⟨"ev1", "Bills vs Jets", "01-01-2026", "01:00 PM", "01-01-2026 01:00 PM"⟩

def outOver : Outcome := ⟨some "Josh Allen", PyVal.int 150, some 250, some "Over"⟩

def outUnder : Outcome := ⟨some "Josh Allen", PyVal.int (-180), some 250, some "Under"⟩

def bmFD : Bookmaker := ⟨some "FanDuel", [⟨some "player_pass_yds", [outOver, outUnder]⟩]⟩

def bmDK : Bookmaker := ⟨some "DraftKings", [⟨some "player_pass_yds", [outOver]⟩]⟩

def selEx : List (Game × HttpOutcome (List Bookmaker)) :=
  [(gEx, .resp 200 (Except.ok [bmFD, bmDK]) Option.none "")]
example : to_american_odds (PyVal.int (-150)) = some (-150) := by decide
example : to_american_odds (PyVal.float 150) = some 150 := by decide
example : to_american_odds (PyVal.str "abc") = Option.none := by decide
example : to_american_odds PyVal.none = Option.none := by decide

/-! Helper lemmas for evaluating the converter. -/

theorem truncQ_intCast (z : ℤ) : truncQ (z : ℚ) = z := by
  unfold truncQ; split <;> simp

theorem toAmericanBody_float_small (q : ℚ) (h : ¬ 100 < |q|) :
    toAmericanBody (PyVal.float q) = decimalBranch q := by
  simp [toAmericanBody, pyIsInt, pyIsFloat, pyAbsOver100, h, pyFloat]

theorem decimalBranch_high (q : ℚ) (h : 2 ≤ q) :
    decimalBranch q = .ok (truncQ ((q - 1) * 100)) := by
  simp [decimalBranch, h]

theorem decimalBranch_low (q : ℚ) (h1 : ¬ 2 ≤ q) (h0 : q - 1 ≠ 0) :
    decimalBranch q = .ok (truncQ (-100 / (q - 1))) := by
  simp [decimalBranch, h1, pyDiv, h0, Except.map]

/-- C1, counterexample: the claim "for every decimal odds value d with
d ≥ 2.0 the converter returns (d−1)×100 truncated" fails as stated: the
float 150.0 and the int 3 are both ≥ 2.0, yet the first branch of
`to_american_odds` treats them as already-American and returns them
unchanged instead of applying the decimal formula. -/
theorem converter_decimal_high_cx :
    to_american_odds (PyVal.float 150) ≠ some (truncQ (((150 : ℚ) - 1) * 100)) ∧
    to_american_odds (PyVal.int 3) ≠ some (truncQ (((3 : ℚ) - 1) * 100)) := by
  have e1 : truncQ (((150 : ℚ) - 1) * 100) = 14900 := by
    rw [(by norm_num : ((150 : ℚ) - 1) * 100 = ((14900 : ℤ) : ℚ)), truncQ_intCast]
  have e2 : truncQ (((3 : ℚ) - 1) * 100) = 200 := by
    rw [(by norm_num : ((3 : ℚ) - 1) * 100 = ((200 : ℤ) : ℚ)), truncQ_intCast]
  refine ⟨?_, ?_⟩
  · rw [e1, (by decide : to_american_odds (PyVal.float 150) = some 150)]
    decide
  · rw [e2, (by decide : to_american_odds (PyVal.int 3) = some 3)]
    decide

/-- C1 (amended): for every decimal odds value d supplied as a float with
2.0 ≤ d ≤ 100, the converter returns (d − 1) × 100 truncated toward zero.
(Floats above 100 in absolute value, and integer inputs, are instead routed
to the already-American first branch.) -/
theorem converter_decimal_high (q : ℚ) (h2 : 2 ≤ q) (h100 : q ≤ 100) :
    to_american_odds (PyVal.float q) = some (truncQ ((q - 1) * 100)) := by
  have habs : ¬ 100 < |q| := by
    rw [abs_of_nonneg (by linarith)]; linarith
  simp [to_american_odds, toAmericanBody_float_small q habs, decimalBranch_high q h2]

/-- C1, witness: converter(2.5) = 150, as the claim's example states. -/
theorem converter_decimal_high_witness :
    to_american_odds (PyVal.float (5 / 2)) = some 150 := by
  rw [converter_decimal_high (5 / 2) (by norm_num) (by norm_num),
    (by norm_num : ((5 : ℚ) / 2 - 1) * 100 = ((150 : ℤ) : ℚ)), truncQ_intCast]

/-- C2: for every decimal odds value d with 1.0 < d < 2.0, the converter
returns −100 / (d − 1) truncated toward zero. -/
theorem converter_decimal_low (q : ℚ) (h1 : 1 < q) (h2 : q < 2) :
    to_american_odds (PyVal.float q) = some (truncQ (-100 / (q - 1))) := by
  have habs : ¬ 100 < |q| := by
    rw [abs_of_nonneg (by linarith)]; linarith
  have hn2 : ¬ 2 ≤ q := by linarith
  have h0 : q - 1 ≠ 0 := sub_ne_zero.mpr (ne_of_gt h1)
  simp [to_american_odds, toAmericanBody_float_small q habs, decimalBranch_low q hn2 h0]

/-- C2, witness: converter(1.5) = −200, as the claim's example states. -/
theorem converter_decimal_low_witness :
    to_american_odds (PyVal.float (3 / 2)) = some (-200) := by
  rw [converter_decimal_low (3 / 2) (by norm_num) (by norm_num),
    (by norm_num : -100 / ((3 : ℚ) / 2 - 1) = ((-200 : ℤ) : ℚ)), truncQ_intCast]

/-- C3: converting exactly 1.0 yields the null marker (the division by zero
in the second branch is caught), and more generally every exception raised
by the body of the converter is caught and turned into null. -/
theorem converter_exception_null :
    to_american_odds (PyVal.float 1) = Option.none ∧
    ∀ v e, toAmericanBody v = Except.error e → to_american_odds v = Option.none := by
  constructor
  · have habs : ¬ (100 : ℚ) < |1| := by norm_num
    have hn2 : ¬ (2 : ℚ) ≤ 1 := by norm_num
    have h0 : (1 : ℚ) - 1 = 0 := by norm_num
    simp [to_american_odds, toAmericanBody_float_small 1 habs, decimalBranch, hn2,
      pyDiv, h0, Except.map]
  · intro v e h
    simp [to_american_odds, h]

/-- C3, witness: the non-numeric string "abc" raises inside the body and the
converter returns null rather than propagating the exception. -/
theorem converter_exception_null_witness :
    to_american_odds (PyVal.str "abc") = Option.none :=
  converter_exception_null.2 (PyVal.str "abc") PyExc.valueError rfl

/-- C4: an integer input, or a float input with absolute value above 100, is
treated as already-American and returned truncated toward zero. -/
theorem converter_already_american :
    (∀ n : ℤ, to_american_odds (PyVal.int n) = some n) ∧
    (∀ q : ℚ, 100 < |q| → to_american_odds (PyVal.float q) = some (truncQ q)) := by
  constructor
  · intro n
    simp [to_american_odds, toAmericanBody, pyIsInt, pyInt]
  · intro q h
    simp [to_american_odds, toAmericanBody, pyIsInt, pyIsFloat, pyAbsOver100, h, pyInt]

/-- C4, witness: converter(-150) = -150, and the float 150.0 is returned
unchanged by the already-American branch. -/
theorem converter_already_american_witness :
    to_american_odds (PyVal.int (-150)) = some (-150) ∧
    to_american_odds (PyVal.float 150) = some 150 := by
  refine ⟨converter_already_american.1 (-150), ?_⟩
  rw [converter_already_american.2 150 (by norm_num),
    (by norm_num : (150 : ℚ) = ((150 : ℤ) : ℚ)), truncQ_intCast]


/-- C5: with a parsed 200 discovery response, the returned games are exactly
the per-event filter of the response, and a parsed event is kept if and only
if its kickoff is at or before now + horizon — strictly-later events are
excluded and the boundary instant is included. -/
theorem discovery_keeps_iff_within_horizon (now : ℤ) (fmt : ℤ → EstStamp)
    (events : List RawEvent) (em : Option (Option String)) (tx : String) :
    (get_upcoming_games now fmt (.resp 200 (.ok events) em tx)).2
      = events.filterMap (processEvent now fmt) ∧
    ∀ i h a t, (processEvent now fmt (RawEvent.ok i h a t)).isSome = true ↔
      t ≤ now + HOURS_AHEAD * 3600 := by
  constructor
  · simp [get_upcoming_games]
  · intro i h a t
    by_cases ht : t ≤ now + HOURS_AHEAD * 3600 <;> simp [processEvent, ht]

/-- C5, witness: with now = 0, an event at exactly the 48-hour cutoff
(172800 s) is kept — the boundary is inclusive. -/
theorem discovery_keeps_iff_within_horizon_witness :
    (processEvent 0 fmtEx (RawEvent.ok "e1" "H" "A" 172800)).isSome = true :=
  ((discovery_keeps_iff_within_horizon 0 fmtEx [] Option.none "").2
    "e1" "H" "A" 172800).mpr (by decide)

/-- C10: discovery applies no lower time bound — an event whose kickoff lies
strictly before now is still returned, since only the upper cutoff filters. -/
theorem discovery_no_lower_bound (now : ℤ) (fmt : ℤ → EstStamp)
    (i h a : String) (t : ℤ) (hp : t < now) (em : Option (Option String)) (tx : String) :
    (get_upcoming_games now fmt (.resp 200 (.ok [RawEvent.ok i h a t]) em tx)).2
      = [buildGame fmt i h a t] := by
  have hh : (0 : ℤ) ≤ HOURS_AHEAD * 3600 := by norm_num [HOURS_AHEAD]
  have ht : t ≤ now + HOURS_AHEAD * 3600 := by linarith
  simp [get_upcoming_games, processEvent, ht]

/-- C10, witness: with now = 0, an event 100 seconds in the past is kept. -/
theorem discovery_no_lower_bound_witness :
    (get_upcoming_games 0 fmtEx
      (.resp 200 (.ok [RawEvent.ok "e1" "H" "A" (-100)]) Option.none "")).2
      = [buildGame fmtEx "e1" "H" "A" (-100)] :=
  discovery_no_lower_bound 0 fmtEx "e1" "H" "A" (-100) (by decide) Option.none ""

/-- C9: every failing discovery call — transport error, non-200 status, or a
200 body that fails to parse — surfaces exactly one error message and
returns the empty games list. -/
theorem discovery_failure_empty (now : ℤ) (fmt : ℤ → EstStamp) :
    (∀ m, get_upcoming_games now fmt (.netError m) = ([DiscMsg.networkError m], [])) ∧
    (∀ st (body : Except String (List RawEvent)) em tx, st ≠ 200 →
      get_upcoming_games now fmt (.resp st body em tx)
        = ([DiscMsg.apiError st (discoveryErrMessage em tx)], [])) ∧
    (∀ m em tx, get_upcoming_games now fmt (.resp 200 (Except.error m) em tx)
        = ([DiscMsg.parseError m], [])) := by
  refine ⟨fun m => rfl, fun st body em tx hst => ?_, fun m em tx => ?_⟩
  · simp [get_upcoming_games, hst]
  · simp [get_upcoming_games]

/-- C9, witness: a 500 response with a JSON "message" field surfaces that
message as the error and yields no games. -/
theorem discovery_failure_empty_witness :
    get_upcoming_games 0 fmtEx (.resp 500 (Except.ok []) (some (some "quota")) "")
      = ([DiscMsg.apiError 500 "quota"], []) := by
  rw [(discovery_failure_empty 0 fmtEx).2.1 500 (Except.ok [])
    (some (some "quota")) "" (by decide)]
  rfl

/-- C6: in the per-event odds fetch, a 422 response is skipped silently with
no message, any other non-200 status warns and contributes no rows, a
transport error warns and contributes no rows, and the final result set of a
batch is exactly the Over-filter of the concatenated per-event rows — so it
is derived only from the events whose fetch succeeded, and a failure never
aborts the remaining events. -/
theorem fetch_per_event_failures :
    (∀ g body em tx, processOdds g (HttpOutcome.resp 422 body em tx) = ([], [])) ∧
    (∀ g st body em tx, st ≠ 422 → st ≠ 200 →
      processOdds g (HttpOutcome.resp st body em tx)
        = ([FetchMsg.apiWarning st g.game (fetchErrMessage em tx)], [])) ∧
    (∀ g m, processOdds g (HttpOutcome.netError m) = ([FetchMsg.netWarning g.game m], [])) ∧
    (∀ sel, (fetch_odds sel).2 =
      ((sel.map fun p => (processOdds p.1 p.2).2).flatten.filter
        fun r => r.side == some "Over")) := by
  refine ⟨fun g body em tx => by simp [processOdds],
    fun g st body em tx h422 h200 => by simp [processOdds, h422, h200],
    fun g m => rfl, fun sel => ?_⟩
  unfold fetch_odds
  simp only [List.map_map]
  have hc : (Prod.snd ∘ fun p : Game × HttpOutcome (List Bookmaker) => processOdds p.1 p.2)
      = fun p : Game × HttpOutcome (List Bookmaker) => (processOdds p.1 p.2).2 := rfl
  rw [hc]
  split
  · next h =>
    rw [List.isEmpty_iff.mp h]
    rfl
  · rfl

/-- C6, witness: a 500 response for one event produces exactly one warning
carrying the upstream message and no rows. -/
theorem fetch_per_event_failures_witness :
    processOdds gEx (HttpOutcome.resp 500 (Except.ok []) (some (some "bad")) "")
      = ([FetchMsg.apiWarning 500 "Bills vs Jets" "bad"], []) := by
  rw [fetch_per_event_failures.2.1 gEx 500 (Except.ok []) (some (some "bad")) ""
    (by decide) (by decide)]
  rfl

theorem mem_processOdds_rows (g : Game) (r : HttpOutcome (List Bookmaker))
    (row : PropRow) (hrow : row ∈ (processOdds g r).2) :
    ∃ bms em tx, r = HttpOutcome.resp 200 (Except.ok bms) em tx ∧
      row ∈ extractProps g bms := by
  match r with
  | .netError m => simp [processOdds] at hrow
  | .resp st body em tx =>
    by_cases h422 : st = 422
    · simp [processOdds, h422] at hrow
    · by_cases h200 : st = 200
      · subst h200
        match body with
        | .error m => simp [processOdds, h422] at hrow
        | .ok bms =>
          refine ⟨bms, em, tx, rfl, ?_⟩
          simpa [processOdds, h422] using hrow
      · simp [processOdds, h422, h200] at hrow

theorem mem_extractProps (g : Game) (bms : List Bookmaker) (row : PropRow)
    (hrow : row ∈ extractProps g bms) :
    ∃ bm ∈ bms, matchesFanduel bm = true ∧ row.bookmaker = bm.title := by
  unfold extractProps at hrow
  rw [List.mem_flatMap] at hrow
  obtain ⟨bm, hbm, hrow⟩ := hrow
  by_cases hm : matchesFanduel bm
  · rw [if_pos hm] at hrow
    rw [List.mem_flatMap] at hrow
    obtain ⟨mk, hmk, hrow⟩ := hrow
    rw [List.mem_map] at hrow
    obtain ⟨o, ho, hr⟩ := hrow
    subst hr
    exact ⟨bm, hbm, hm, rfl⟩
  · rw [if_neg hm] at hrow
    simp at hrow

/-- C7: every row of the fetcher's output traces back to a selected event
whose call returned a parsed 200 response containing a bookmaker whose title
matches "fanduel" case-insensitively as a substring, and the row's bookmaker
field is that bookmaker's title; when no bookmaker of a response matches,
the bookmaker loop yields nothing. -/
theorem fetch_fanduel_only :
    (∀ sel (row : PropRow), row ∈ (fetch_odds sel).2 →
      ∃ p ∈ sel, ∃ bms em tx, p.2 = HttpOutcome.resp 200 (Except.ok bms) em tx ∧
        ∃ bm ∈ bms, matchesFanduel bm = true ∧ row.bookmaker = bm.title) ∧
    (∀ g bms, (∀ bm ∈ bms, matchesFanduel bm = false) → extractProps g bms = []) := by
  constructor
  · intro sel row hrow
    have hmem : row ∈ (sel.map fun p => (processOdds p.1 p.2).2).flatten := by
      unfold fetch_odds at hrow
      simp only [List.map_map] at hrow
      have hc : (Prod.snd ∘ fun p : Game × HttpOutcome (List Bookmaker) => processOdds p.1 p.2)
          = fun p : Game × HttpOutcome (List Bookmaker) => (processOdds p.1 p.2).2 := rfl
      rw [hc] at hrow
      split at hrow
      · simp at hrow
      · exact (List.mem_filter.mp hrow).1
    rw [List.mem_flatten] at hmem
    obtain ⟨l, hl, hrowl⟩ := hmem
    rw [List.mem_map] at hl
    obtain ⟨p, hp, hlp⟩ := hl
    subst hlp
    obtain ⟨bms, em, tx, hr, hrow2⟩ := mem_processOdds_rows p.1 p.2 row hrowl
    obtain ⟨bm, hbm, hfd, hbk⟩ := mem_extractProps p.1 bms row hrow2
    exact ⟨p, hp, bms, em, tx, hr, bm, hbm, hfd, hbk⟩
  · intro g bms hall
    unfold extractProps
    rw [List.flatMap_eq_nil_iff]
    intro bm hbm
    simp [hall bm hbm]

/-- C7, witness: a response whose only bookmaker is "DraftKings" contributes
no rows. -/
theorem fetch_fanduel_only_witness :
    extractProps gEx [bmDK] = [] :=
  fetch_fanduel_only.2 gEx [bmDK] (by decide)

/-- C8: every record in the assembled result set of a fetch has
side = "Over"; rows with any other side value are removed by the final
filter. -/
theorem fetch_only_over_rows (sel : List (Game × HttpOutcome (List Bookmaker)))
    (row : PropRow) (hrow : row ∈ (fetch_odds sel).2) :
    row.side = some "Over" := by
  simp only [fetch_odds] at hrow
  split at hrow
  · simp at hrow
  · have h := List.mem_filter.mp hrow
    simpa using h.2

/-- C8, witness: from a FanDuel market holding one Over and one Under
outcome, the Over row is in the output (and, by the theorem, has
side = "Over"). -/
theorem fetch_only_over_rows_witness :
    (mkRow gEx bmFD (some "player_pass_yds") outOver).side = some "Over" :=
  fetch_only_over_rows selEx (mkRow gEx bmFD (some "player_pass_yds") outOver) (by decide)
